import Mathlib

/-!
Shallow embedding of the video-compression task pipeline
(web/api/src: tasks/feature_calculator.py, tasks/transcode.py,
tasks/extractors.py, main.py, database/models.py), together with
theorems settling the specification claims about it.

Conventions of the embedding:
  - Python dicts with a fixed key set become structures; a key that may be
    absent becomes an Option field, and a dict access that can raise
    KeyError makes the translated function return Option.
  - pandas dataframes of candidate rows become lists of a row structure;
    predicted quality (a float) is embedded as a rational.
  - numpy uint8 arithmetic is embedded as Nat arithmetic mod 256.
  - Database task rows become a structure; each handler returns the list
    of row states it commits, in order, plus its broker return value.
-/

namespace VideoCompression

/-- Task status enumeration, from database/models.py (TaskStatus). -/
inductive TaskStatus where
  | pending
  | processing
  | completed
  | failed
deriving DecidableEq, Repr

/-- Persisted task row, from database/models.py (Task).  The id and the
timestamp columns play no role in the claims and are omitted. -/
structure TaskRow where
  status : TaskStatus
  source_file : String
  source_size : Int
  output_file : Option String
  output_size : Option Int
  error_message : Option String
deriving DecidableEq, Repr

/-- One scored candidate row of the cross-joined parameter grid, after the
regression model has filled the quality column
(feature_calculator.py, predict_parameters). -/
structure CandidateRow where
  parameter : String
  value : Int
  quality : Rat
deriving DecidableEq, Repr

/-- The pair returned by select_best_row (feature_calculator.py lines
201 to 209): the chosen parameter name and its integer value. -/
structure Selection where
  parameter : String
  value : Int
deriving DecidableEq, Repr

/-- First row attaining the minimal quality, the semantics of pandas
Series.idxmin followed by dataframe.loc (feature_calculator.py line 208):
on ties the earliest row wins. -/
def idxminQuality : List CandidateRow → Option CandidateRow
  | [] => none
  | r :: rest =>
      match idxminQuality rest with
      | none => some r
      | some b => if b.quality < r.quality then some b else some r

/-- FeatureCalculatorTask.select_best_row (feature_calculator.py lines
201 to 209): restrict to rows with quality at least 95; if that set is
empty return the crf 16 fallback, otherwise the row of smallest quality. -/
def select_best_row (rows : List CandidateRow) : Selection :=
  let high_quality_rows := rows.filter (fun r => decide ((95 : Rat) ≤ r.quality))
  match idxminQuality high_quality_rows with
  | none => ⟨"crf", 16⟩
  | some r => ⟨r.parameter, r.value⟩

/-- Predictor output dict flowing from the feature_calculator task to the
transcode task.  Keys parameter, value and error may be absent, hence
Option fields; status is always present in every dict the code builds. -/
structure PredictorOutput where
  parameter : Option String
  value : Option Int
  status : String
  error : Option String
deriving DecidableEq, Repr

/-- The value returned by FeatureCalculatorTask.run on the successful path
(feature_calculator.py lines 274 to 277): the select_best_row result with
the status key set to success, unconditionally. -/
def predictResult (rows : List CandidateRow) : PredictorOutput :=
  let s := select_best_row rows
  ⟨some s.parameter, some s.value, "success", none⟩

/-- Result of one invocation of FeatureCalculatorTask.run: the task rows
committed to the database in order, the final persisted row, and the
value returned to the broker chain. -/
structure FeatureCalcResult where
  writes : List TaskRow
  task : TaskRow
  output : PredictorOutput
deriving DecidableEq, Repr

/-- FeatureCalculatorTask.run (feature_calculator.py lines 216 to 277).
The opaque parts, decoding plus aggregation plus the regression model
(lines 239 to 273), are abstracted by the analysis argument: either the
scored candidate table or the message of the exception raised.  On the
terminal early exit nothing is written; otherwise the row is committed
with status processing, and no later write happens on either path: the
exception path only returns a failed-status dict. -/
def featureCalculatorRun (t : TaskRow)
    (analysis : Except String (List CandidateRow)) : FeatureCalcResult :=
  if t.status = TaskStatus.completed ∨ t.status = TaskStatus.failed then
    ⟨[], t, ⟨none, none, "failed", some "Task is finished"⟩⟩
  else
    let t1 := { t with status := TaskStatus.processing }
    match analysis with
    | .error e => ⟨[t1], t1, ⟨none, none, "failed", some e⟩⟩
    | .ok rows => ⟨[t1], t1, predictResult rows⟩

/-- TranscodeVideoTask.encode_params (transcode.py lines 158 to 170).
Returns none when the success branch would raise KeyError on a missing
parameter or value key; any status other than success or failed falls
through both branches and appends nothing. -/
def encode_params (params : PredictorOutput) : Option (List String) :=
  let result := ["-c:v", "libx265", "-preset", "veryslow"]
  if params.status = "failed" then some (result ++ ["-crf", "16"])
  else if params.status = "success" then
    match params.parameter, params.value with
    | some par, some v => some (result ++ ["-" ++ par, toString v])
    | _, _ => none
  else some result

/-- The input argument group of encode_video (transcode.py lines 73 to 80). -/
def input_params (input_path : String) : List String :=
  ["-seekable", "1",
   "-reconnect_delay_max", "300",
   "-multiple_requests", "1",
   "-reconnect_on_http_error", "429,5xx",
   "-reconnect_on_network_error", "1",
   "-i", input_path]

/-- The trailing argument group of encode_video (transcode.py lines 82 to 89). -/
def global_params (output_path : String) : List String :=
  ["-codec:a", "copy", "-sn", "-y", "-hide_banner", "-loglevel", "error",
   output_path]

/-- The full argv handed to the encoder subprocess (transcode.py lines
92 to 99), for the given predictor output; none when building the
parameter group raises. -/
def encode_video_argv (ffmpeg_bin input_path output_path : String)
    (p : PredictorOutput) : Option (List String) :=
  (encode_params p).map
    (fun ep => ffmpeg_bin :: (input_params input_path ++ ep ++ global_params output_path))

/-- Outcome of the encode plus upload block of TranscodeVideoTask.run
(transcode.py lines 136 to 142): success with the output byte size, an
encoder failure, or an upload failure. -/
inductive EncodeOutcome where
  | ok (size : Int)
  | encodeError (msg : String)
  | uploadError (msg : String)
deriving DecidableEq, Repr

/-- Result of one invocation of TranscodeVideoTask.run: committed task
rows in order, final persisted row, the number of successful uploads to
an encoded key, and the number of encoder subprocess invocations. -/
structure TranscodeResult where
  writes : List TaskRow
  task : TaskRow
  uploads : Nat
  encoderRuns : Nat
deriving DecidableEq, Repr

/-- TranscodeVideoTask.run (transcode.py lines 107 to 156).  Terminal
tasks exit before any write or side effect.  Otherwise the row is
committed with status processing; a KeyError from encode_params (called
outside the try block, line 122) aborts the run with no further effect;
otherwise the encoder runs, the upload is attempted on encoder success,
and the row is committed again as completed with the fresh output key
and size, or as failed with the error text. -/
def transcodeRun (t : TaskRow) (p : PredictorOutput) (hexName : String)
    (outcome : EncodeOutcome) : TranscodeResult :=
  if t.status = TaskStatus.completed ∨ t.status = TaskStatus.failed then
    ⟨[], t, 0, 0⟩
  else
    let t1 := { t with status := TaskStatus.processing }
    match encode_params p with
    | none => ⟨[t1], t1, 0, 0⟩
    | some _ =>
      let output_key := "encoded/" ++ hexName ++ ".mp4"
      match outcome with
      | .ok size =>
          let t2 := { t1 with
            status := TaskStatus.completed,
            output_file := some output_key,
            output_size := some size }
          ⟨[t1, t2], t2, 1, 1⟩
      | .encodeError m =>
          let t2 := { t1 with status := TaskStatus.failed, error_message := some m }
          ⟨[t1, t2], t2, 0, 1⟩
      | .uploadError m =>
          let t2 := { t1 with status := TaskStatus.failed, error_message := some m }
          ⟨[t1, t2], t2, 0, 1⟩

/-- A sequence of complete redeliveries of the transcode job for one task:
each invocation runs on the row state the previous one left, with an
arbitrary predictor output, output name and encode outcome.  Returns the
final row and the total number of successful encoded uploads. -/
def transcodeSeq (t : TaskRow) :
    List (PredictorOutput × String × EncodeOutcome) → TaskRow × Nat
  | [] => (t, 0)
  | (p, h, oc) :: rest =>
      let r := transcodeRun t p h oc
      let rec_ := transcodeSeq r.task rest
      (rec_.1, r.uploads + rec_.2)

/-- The status transitions the spec permits for a single committed write:
pending to processing, or processing to any of processing, completed,
failed. -/
def statusStepOk (a b : TaskStatus) : Prop :=
  (a = TaskStatus.pending ∧ b = TaskStatus.processing) ∨
  (a = TaskStatus.processing ∧
    (b = TaskStatus.processing ∨ b = TaskStatus.completed ∨ b = TaskStatus.failed))

/-- Field conditions the spec imposes on committed rows: completed rows
carry an output file, failed rows carry an error message. -/
def writesWellFormed (ws : List TaskRow) : Prop :=
  ∀ w ∈ ws,
    (w.status = TaskStatus.completed → w.output_file ≠ none) ∧
    (w.status = TaskStatus.failed → w.error_message ≠ none)

/-- Task rows the system can ever persist: the freshly created pending
row (main.py lines 78 to 84), and every row committed by either handler
when run on a stored row. -/
inductive StoredTask : TaskRow → Prop where
  | created (src : String) (size : Int) :
      StoredTask ⟨TaskStatus.pending, src, size, none, none, none⟩
  | analyzeWrite (t w : TaskRow) (analysis : Except String (List CandidateRow)) :
      StoredTask t → w ∈ (featureCalculatorRun t analysis).writes → StoredTask w
  | transcodeWrite (t w : TaskRow) (p : PredictorOutput) (hexName : String)
      (oc : EncodeOutcome) :
      StoredTask t → w ∈ (transcodeRun t p hexName oc).writes → StoredTask w

/-- The download_url attached by get_task (main.py lines 133 to 140):
present exactly when the status is completed and output_file is truthy,
that is, neither null nor the empty string.  The presigned URL generator
is abstracted as a function of the output key. -/
def get_task_download_url (presign : String → String) (t : TaskRow) : Option String :=
  if t.status = TaskStatus.completed then
    match t.output_file with
    | some f => if f = "" then none else some (presign f)
    | none => none
  else none

/-- The double value of numpy pi, as an exact rational. -/
def piF : Rat := 884279719003555 / 281474976710656

/-- FHV13Extractor.DELTA_THETA (extractors.py line 147). -/
def deltaTheta : Rat := 225 / 1000

/-- FHV13Extractor.R_MIN (extractors.py line 148). -/
def rMin : Rat := 20

/-- Channel 0 of FHV13Extractor.extract at one pixel (extractors.py lines
170 to 179): the loop over the four axis-aligned sectors, given the
gradient magnitude R and angle theta at that pixel. -/
def hvMaskPixel (R theta : Rat) : Rat :=
  (List.range 4).foldl
    (fun (acc : Rat) (m : Nat) =>
      let angle_center := (m : Rat) * piF / 2
      let angle_min := angle_center - deltaTheta
      let angle_max := angle_center + deltaTheta
      if rMin ≤ R ∧ angle_min < theta ∧ theta < angle_max then R else acc)
    0

/-- Channel 1 of FHV13Extractor.extract at one pixel (extractors.py lines
180 to 189): the loop over the four supposedly diagonal sectors, with the
bounds exactly as the source computes them. -/
def notHvMaskPixel (R theta : Rat) : Rat :=
  (List.range 4).foldl
    (fun (acc : Rat) (m : Nat) =>
      let angle_center := (m : Rat) * piF / 2
      let angle_min := angle_center + deltaTheta
      let angle_max := angle_center - piF / 2 + deltaTheta
      if rMin ≤ R ∧ angle_min ≤ theta ∧ theta ≤ angle_max then R else acc)
    0

/-- The two-channel output of FHV13Extractor.extract (extractors.py line
191), as a function of the per-pixel magnitude and angle matrices. -/
def fhv13MaskChannels (rtheta : List (List (Rat × Rat))) : List (List (Rat × Rat)) :=
  rtheta.map (List.map (fun p => (hvMaskPixel p.1 p.2, notHvMaskPixel p.1 p.2)))

/-- A decoded luma plane: a matrix of uint8 sample values. -/
abbrev YFrame := List (List Nat)

/-- numpy uint8 subtraction: wraps modulo 256. -/
def u8sub (a b : Nat) : Nat := (a % 256 + 256 - b % 256) % 256

/-- The elementwise frame difference computed by TICalculator.extract
(extractors.py line 76) on uint8 arrays. -/
def frameDiff (cur prev : YFrame) : YFrame :=
  List.zipWith (fun rc rp => List.zipWith u8sub rc rp) cur prev

/-- TICalculator.extract (extractors.py lines 71 to 78): with no previous
frame store the frame and return nothing, otherwise return the wrapped
difference with the previous frame and update the store. -/
def tiExtract (prev : Option YFrame) (frame : YFrame) :
    Option YFrame × Option YFrame :=
  match prev with
  | none => (some frame, none)
  | some p => (some frame, some (frameDiff frame p))

/-- Feeding a list of Y frames through one TICalculator instance in order,
collecting the per-frame results. -/
def tiRun : Option YFrame → List YFrame → List (Option YFrame)
  | _, [] => []
  | s, f :: rest =>
      let step := tiExtract s f
      step.2 :: tiRun step.1 rest

/-- The TI outputs for a frame sequence, starting from the fresh state of
TICalculator with no previous frame. -/
def tiProcess (frames : List YFrame) : List (Option YFrame) := tiRun none frames

theorem idxminQuality_eq_none {l : List CandidateRow} :
    idxminQuality l = none ↔ l = [] := by
  cases l with
  | nil => simp [idxminQuality]
  | cons a rest =>
    simp only [idxminQuality]
    constructor
    · intro h
      exfalso
      cases hrest : idxminQuality rest with
      | none => rw [hrest] at h; simp at h
      | some b =>
        rw [hrest] at h
        by_cases hb : b.quality < a.quality <;> simp [hb] at h
    · intro h
      simp at h

theorem idxminQuality_mem {l : List CandidateRow} {r : CandidateRow}
    (h : idxminQuality l = some r) : r ∈ l := by
  induction l generalizing r with
  | nil => simp [idxminQuality] at h
  | cons a rest ih =>
    simp only [idxminQuality] at h
    cases hrest : idxminQuality rest with
    | none =>
      rw [hrest] at h
      simp only [Option.some.injEq] at h
      simp [← h]
    | some b =>
      rw [hrest] at h
      by_cases hb : b.quality < a.quality
      · simp only [hb, if_pos, Option.some.injEq] at h
        exact List.mem_cons_of_mem _ (h ▸ ih hrest)
      · simp only [hb, if_neg, Option.some.injEq, not_false_iff] at h
        simp [← h]

theorem idxminQuality_le {l : List CandidateRow} {r : CandidateRow}
    (h : idxminQuality l = some r) : ∀ x ∈ l, r.quality ≤ x.quality := by
  induction l generalizing r with
  | nil => simp [idxminQuality] at h
  | cons a rest ih =>
    simp only [idxminQuality] at h
    intro x hx
    rcases List.mem_cons.mp hx with hxa | hxrest
    · subst hxa
      cases hrest : idxminQuality rest with
      | none =>
        rw [hrest] at h
        simp only [Option.some.injEq] at h
        simp [← h]
      | some b =>
        rw [hrest] at h
        by_cases hb : b.quality < x.quality
        · simp only [hb, if_pos, Option.some.injEq] at h
          exact le_of_lt (h ▸ hb)
        · simp only [hb, if_neg, Option.some.injEq, not_false_iff] at h
          simp [← h]
    · cases hrest : idxminQuality rest with
      | none =>
        rw [idxminQuality_eq_none.mp hrest] at hxrest
        simp at hxrest
      | some b =>
        rw [hrest] at h
        have hbx : b.quality ≤ x.quality := ih hrest x hxrest
        by_cases hb : b.quality < a.quality
        · simp only [hb, if_pos, Option.some.injEq] at h
          exact h ▸ hbx
        · simp only [hb, if_neg, Option.some.injEq, not_false_iff] at h
          exact le_trans (h ▸ le_of_not_lt hb) hbx

/-- C1: whenever some scored candidate row has quality at least 95,
select_best_row returns the parameter and value of a row of the table
that meets the floor and whose quality is minimal among the rows meeting
the floor. -/
theorem select_best_row_picks_min_high_quality
    (rows : List CandidateRow) (hex : ∃ r ∈ rows, (95 : Rat) ≤ r.quality) :
    ∃ r ∈ rows, (95 : Rat) ≤ r.quality ∧
      (∀ x ∈ rows, (95 : Rat) ≤ x.quality → r.quality ≤ x.quality) ∧
      select_best_row rows = ⟨r.parameter, r.value⟩ := by
  obtain ⟨r0, hr0mem, hr0q⟩ := hex
  have hr0hq : r0 ∈ rows.filter (fun r => decide ((95 : Rat) ≤ r.quality)) := by
    simp [List.mem_filter, hr0mem, hr0q]
  cases hmin : idxminQuality (rows.filter (fun r => decide ((95 : Rat) ≤ r.quality))) with
  | none =>
    rw [idxminQuality_eq_none.mp hmin] at hr0hq
    simp at hr0hq
  | some r =>
    have hrmem := idxminQuality_mem hmin
    have hr1 : r ∈ rows := (List.mem_filter.mp hrmem).1
    have hr2 : (95 : Rat) ≤ r.quality := by
      have := (List.mem_filter.mp hrmem).2
      simpa using this
    refine ⟨r, hr1, hr2, ?_, ?_⟩
    · intro x hx hxq
      exact idxminQuality_le hmin x (by simp [List.mem_filter, hx, hxq])
    · simp only [select_best_row, hmin]

/-- Witness for C1 at a concrete two-row table. -/
theorem select_best_row_picks_min_high_quality_witness :
    (∃ r ∈ ([⟨"crf", 17, 96⟩, ⟨"qp", 30, 95⟩] : List CandidateRow),
        (95 : Rat) ≤ r.quality) ∧
    (∃ r ∈ ([⟨"crf", 17, 96⟩, ⟨"qp", 30, 95⟩] : List CandidateRow),
        (95 : Rat) ≤ r.quality ∧
        (∀ x ∈ ([⟨"crf", 17, 96⟩, ⟨"qp", 30, 95⟩] : List CandidateRow),
          (95 : Rat) ≤ x.quality → r.quality ≤ x.quality) ∧
        select_best_row [⟨"crf", 17, 96⟩, ⟨"qp", 30, 95⟩] =
          ⟨r.parameter, r.value⟩) :=
  ⟨⟨⟨"qp", 30, 95⟩, by simp, by norm_num⟩,
   select_best_row_picks_min_high_quality _
     ⟨⟨"qp", 30, 95⟩, by simp, by norm_num⟩⟩

/-- C2 counterexample: on a pending task whose analysis raises, the
handler leaves the persisted status at processing, not failed, so the
claim that the handler marks the task failed is false at this input. -/
theorem featureCalculator_error_not_marked_failed :
    (featureCalculatorRun
        ⟨TaskStatus.pending, "source/a.mp4", 100, none, none, none⟩
        (.error "decode error")).task.status = TaskStatus.processing ∧
    TaskStatus.processing ≠ TaskStatus.failed := by
  exact ⟨rfl, by decide⟩

/-- C2 amended: when the per-frame analysis raises on a non-terminal
task, the handler writes only the processing transition, leaves the
persisted status at processing, and returns a dict with status failed
carrying the error message; it never writes a failed status. -/
theorem featureCalculator_error_leaves_processing (t : TaskRow) (e : String)
    (h1 : t.status ≠ TaskStatus.completed) (h2 : t.status ≠ TaskStatus.failed) :
    featureCalculatorRun t (.error e) =
      ⟨[{ t with status := TaskStatus.processing }],
       { t with status := TaskStatus.processing },
       ⟨none, none, "failed", some e⟩⟩ := by
  have hterm : ¬(t.status = TaskStatus.completed ∨ t.status = TaskStatus.failed) := by
    rintro (h | h)
    · exact h1 h
    · exact h2 h
  simp [featureCalculatorRun, hterm]

/-- Witness for the amended C2 at a concrete pending task. -/
theorem featureCalculator_error_leaves_processing_witness :
    ((⟨TaskStatus.pending, "source/a.mp4", 100, none, none, none⟩ : TaskRow).status
        ≠ TaskStatus.completed ∧
     (⟨TaskStatus.pending, "source/a.mp4", 100, none, none, none⟩ : TaskRow).status
        ≠ TaskStatus.failed) ∧
    featureCalculatorRun
        ⟨TaskStatus.pending, "source/a.mp4", 100, none, none, none⟩
        (.error "decode error") =
      ⟨[⟨TaskStatus.processing, "source/a.mp4", 100, none, none, none⟩],
       ⟨TaskStatus.processing, "source/a.mp4", 100, none, none, none⟩,
       ⟨none, none, "failed", some "decode error"⟩⟩ :=
  ⟨⟨by decide, by decide⟩,
   featureCalculator_error_leaves_processing _ _ (by decide) (by decide)⟩

/-- C3 counterexample: on a table with no row of quality at least 95, the
handler returns status success, not success_fallback. -/
theorem featureCalculator_fallback_status_is_success :
    (featureCalculatorRun
        ⟨TaskStatus.pending, "source/a.mp4", 100, none, none, none⟩
        (.ok [⟨"crf", 17, 50⟩])).output =
      ⟨some "crf", some 16, "success", none⟩ ∧
    ("success" : String) ≠ "success_fallback" := by
  refine ⟨?_, by decide⟩
  rfl

/-- C3 amended: when no scored row reaches quality 95, the handler
returns the dict with parameter crf, value 16 and status success (the
code sets status success unconditionally on the non-raising path). -/
theorem featureCalculator_fallback (t : TaskRow) (rows : List CandidateRow)
    (h1 : t.status ≠ TaskStatus.completed) (h2 : t.status ≠ TaskStatus.failed)
    (hlow : ∀ r ∈ rows, r.quality < 95) :
    (featureCalculatorRun t (.ok rows)).output =
      ⟨some "crf", some 16, "success", none⟩ := by
  have hterm : ¬(t.status = TaskStatus.completed ∨ t.status = TaskStatus.failed) := by
    rintro (h | h)
    · exact h1 h
    · exact h2 h
  have hfil : rows.filter (fun r => decide ((95 : Rat) ≤ r.quality)) = [] := by
    rw [List.filter_eq_nil_iff]
    intro a ha
    simpa using not_le.mpr (hlow a ha)
  simp [featureCalculatorRun, hterm, predictResult, select_best_row, hfil,
    idxminQuality]

/-- Witness for the amended C3 at a concrete pending task and one-row
table. -/
theorem featureCalculator_fallback_witness :
    ((⟨TaskStatus.pending, "source/a.mp4", 100, none, none, none⟩ : TaskRow).status
        ≠ TaskStatus.completed ∧
     (⟨TaskStatus.pending, "source/a.mp4", 100, none, none, none⟩ : TaskRow).status
        ≠ TaskStatus.failed ∧
     ∀ r ∈ ([⟨"crf", 17, 50⟩] : List CandidateRow), r.quality < 95) ∧
    (featureCalculatorRun
        ⟨TaskStatus.pending, "source/a.mp4", 100, none, none, none⟩
        (.ok [⟨"crf", 17, 50⟩])).output =
      ⟨some "crf", some 16, "success", none⟩ :=
  ⟨⟨by decide, by decide, by
      intro r hr
      simp only [List.mem_singleton] at hr
      subst hr
      norm_num⟩,
   featureCalculator_fallback _ _ (by decide) (by decide) (by
      intro r hr
      simp only [List.mem_singleton] at hr
      subst hr
      norm_num)⟩

theorem transcodeRun_terminal (t : TaskRow) (p : PredictorOutput)
    (hexName : String) (oc : EncodeOutcome)
    (h : t.status = TaskStatus.completed ∨ t.status = TaskStatus.failed) :
    transcodeRun t p hexName oc = ⟨[], t, 0, 0⟩ := by
  simp [transcodeRun, h]

theorem statusStepOk_to_processing (t : TaskRow)
    (h : ¬(t.status = TaskStatus.completed ∨ t.status = TaskStatus.failed)) :
    statusStepOk t.status TaskStatus.processing := by
  cases ht : t.status with
  | pending => simp [statusStepOk]
  | processing => simp [statusStepOk]
  | completed => exact absurd (Or.inl ht) h
  | failed => exact absurd (Or.inr ht) h

/-- C4: for either handler run on any row, the committed writes chain
from the incoming status only along pending to processing and processing
to processing, completed or failed; every completed write carries an
output file and every failed write an error message; and nothing is ever
written over a terminal row. -/
theorem handler_status_transitions (t : TaskRow) (p : PredictorOutput)
    (hexName : String) (oc : EncodeOutcome)
    (analysis : Except String (List CandidateRow)) :
    (List.Chain statusStepOk t.status
        ((transcodeRun t p hexName oc).writes.map TaskRow.status) ∧
     writesWellFormed (transcodeRun t p hexName oc).writes ∧
     (t.status = TaskStatus.completed ∨ t.status = TaskStatus.failed →
        (transcodeRun t p hexName oc).writes = [])) ∧
    (List.Chain statusStepOk t.status
        ((featureCalculatorRun t analysis).writes.map TaskRow.status) ∧
     writesWellFormed (featureCalculatorRun t analysis).writes ∧
     (t.status = TaskStatus.completed ∨ t.status = TaskStatus.failed →
        (featureCalculatorRun t analysis).writes = [])) := by
  by_cases hterm : t.status = TaskStatus.completed ∨ t.status = TaskStatus.failed
  · constructor
    · simp [transcodeRun, hterm, writesWellFormed]
    · simp [featureCalculatorRun, hterm, writesWellFormed]
  · have hstep := statusStepOk_to_processing t hterm
    have hpc : statusStepOk TaskStatus.processing TaskStatus.completed := by
      simp [statusStepOk]
    have hpf : statusStepOk TaskStatus.processing TaskStatus.failed := by
      simp [statusStepOk]
    constructor
    · refine ⟨?_, ?_, fun h => absurd h hterm⟩ <;>
        · simp only [transcodeRun, if_neg hterm]
          cases hep : encode_params p with
          | none => simp [writesWellFormed, List.chain_cons, hstep]
          | some l =>
            cases oc <;>
              simp [writesWellFormed, List.chain_cons, hstep, hpc, hpf]
    · refine ⟨?_, ?_, fun h => absurd h hterm⟩ <;>
        · simp only [featureCalculatorRun, if_neg hterm]
          cases analysis <;>
            simp [writesWellFormed, List.chain_cons, hstep]

/-- Witness for C4 at a concrete pending row, successful transcode and a
concrete analysis outcome. -/
theorem handler_status_transitions_witness :
    List.Chain statusStepOk TaskStatus.pending
        ((transcodeRun ⟨TaskStatus.pending, "source/a.mp4", 100, none, none, none⟩
            ⟨none, none, "failed", none⟩ "abc" (.ok 5)).writes.map TaskRow.status) ∧
    writesWellFormed
        (transcodeRun ⟨TaskStatus.pending, "source/a.mp4", 100, none, none, none⟩
            ⟨none, none, "failed", none⟩ "abc" (.ok 5)).writes :=
  ⟨(handler_status_transitions
      ⟨TaskStatus.pending, "source/a.mp4", 100, none, none, none⟩
      ⟨none, none, "failed", none⟩ "abc" (.ok 5) (.ok [])).1.1,
   (handler_status_transitions
      ⟨TaskStatus.pending, "source/a.mp4", 100, none, none, none⟩
      ⟨none, none, "failed", none⟩ "abc" (.ok 5) (.ok [])).1.2.1⟩

theorem transcodeRun_upload_cases (t : TaskRow) (p : PredictorOutput)
    (hexName : String) (oc : EncodeOutcome) :
    (transcodeRun t p hexName oc).uploads = 0 ∨
    ((transcodeRun t p hexName oc).uploads = 1 ∧
      (transcodeRun t p hexName oc).task.status = TaskStatus.completed) := by
  by_cases hterm : t.status = TaskStatus.completed ∨ t.status = TaskStatus.failed
  · simp [transcodeRun, hterm]
  · simp only [transcodeRun, if_neg hterm]
    cases hep : encode_params p with
    | none => simp
    | some l => cases oc <;> simp

theorem transcodeSeq_terminal (t : TaskRow)
    (h : t.status = TaskStatus.completed ∨ t.status = TaskStatus.failed) :
    ∀ seq, (transcodeSeq t seq).2 = 0 := by
  intro seq
  induction seq with
  | nil => rfl
  | cons hd tl ih =>
    obtain ⟨p, hexName, oc⟩ := hd
    simp only [transcodeSeq, transcodeRun_terminal t p hexName oc h]
    simpa using ih

theorem transcodeSeq_uploads_le_one :
    ∀ (seq : List (PredictorOutput × String × EncodeOutcome)) (t : TaskRow),
      (transcodeSeq t seq).2 ≤ 1 := by
  intro seq
  induction seq with
  | nil => intro t; simp [transcodeSeq]
  | cons hd tl ih =>
    intro t
    obtain ⟨p, hexName, oc⟩ := hd
    rcases transcodeRun_upload_cases t p hexName oc with h0 | ⟨h1, hcomp⟩
    · simp only [transcodeSeq, h0]
      simpa using ih ((transcodeRun t p hexName oc).task)
    · have hzero :=
        transcodeSeq_terminal ((transcodeRun t p hexName oc).task) (Or.inl hcomp) tl
      simp [transcodeSeq, h1, hzero]

/-- C5: a transcode invocation on a terminal row returns with no write,
no encoder invocation and no upload, leaving the row unchanged; and over
any sequence of complete redeliveries the total number of successful
encoded uploads for the task is at most one. -/
theorem transcode_at_most_one_upload (t : TaskRow) (p : PredictorOutput)
    (hexName : String) (oc : EncodeOutcome)
    (seq : List (PredictorOutput × String × EncodeOutcome)) :
    ((t.status = TaskStatus.completed ∨ t.status = TaskStatus.failed) →
       transcodeRun t p hexName oc = ⟨[], t, 0, 0⟩) ∧
    (transcodeSeq t seq).2 ≤ 1 :=
  ⟨transcodeRun_terminal t p hexName oc, transcodeSeq_uploads_le_one seq t⟩

/-- Witness for C5 at a concrete completed row and one redelivery. -/
theorem transcode_at_most_one_upload_witness :
    transcodeRun
        ⟨TaskStatus.completed, "source/a.mp4", 100, some "encoded/a.mp4", some 5, none⟩
        ⟨none, none, "failed", none⟩ "abc" (.ok 5) =
      ⟨[], ⟨TaskStatus.completed, "source/a.mp4", 100, some "encoded/a.mp4",
        some 5, none⟩, 0, 0⟩ ∧
    (transcodeSeq
        ⟨TaskStatus.completed, "source/a.mp4", 100, some "encoded/a.mp4", some 5, none⟩
        [(⟨none, none, "failed", none⟩, "abc", .ok 5)]).2 ≤ 1 :=
  ⟨(transcode_at_most_one_upload _ _ "abc" (.ok 5) []).1 (Or.inl rfl),
   (transcode_at_most_one_upload _ ⟨none, none, "failed", none⟩ "abc" (.ok 5)
      [(⟨none, none, "failed", none⟩, "abc", .ok 5)]).2⟩

theorem encode_params_success (par : String) (v : Int) (err : Option String) :
    encode_params ⟨some par, some v, "success", err⟩ =
      some ["-c:v", "libx265", "-preset", "veryslow", "-" ++ par, toString v] :=
  rfl

theorem encode_params_failed (par : Option String) (v : Option Int)
    (err : Option String) :
    encode_params ⟨par, v, "failed", err⟩ =
      some ["-c:v", "libx265", "-preset", "veryslow", "-crf", "16"] := by
  cases par <;> cases v <;> rfl

/-- C6: for every output the feature_calculator handler can return, the
encoder argv is the binary, the fixed input group verbatim, the fixed
codec and preset pair followed by a tail, then the fixed global group;
and the tail is the dash-joined parameter and value when the status is
success, or crf 16 when the status is failed. -/
theorem encoder_invocation_args (t : TaskRow)
    (analysis : Except String (List CandidateRow)) (bin url out : String) :
    ∃ tail : List String,
      encode_video_argv bin url out (featureCalculatorRun t analysis).output =
        some (bin ::
          (["-seekable", "1", "-reconnect_delay_max", "300",
            "-multiple_requests", "1", "-reconnect_on_http_error", "429,5xx",
            "-reconnect_on_network_error", "1", "-i", url] ++
           (["-c:v", "libx265", "-preset", "veryslow"] ++ tail) ++
           ["-codec:a", "copy", "-sn", "-y", "-hide_banner", "-loglevel",
            "error", out])) ∧
      (((featureCalculatorRun t analysis).output.status = "success" ∧
        ∃ par v,
          (featureCalculatorRun t analysis).output.parameter = some par ∧
          (featureCalculatorRun t analysis).output.value = some v ∧
          tail = ["-" ++ par, toString v]) ∨
       ((featureCalculatorRun t analysis).output.status = "failed" ∧
        tail = ["-crf", "16"])) := by
  by_cases hterm : t.status = TaskStatus.completed ∨ t.status = TaskStatus.failed
  · refine ⟨["-crf", "16"], ?_, Or.inr ⟨?_, rfl⟩⟩
    · simp [featureCalculatorRun, hterm, encode_video_argv, encode_params_failed,
        input_params, global_params]
    · simp [featureCalculatorRun, hterm]
  · cases analysis with
    | error e =>
      refine ⟨["-crf", "16"], ?_, Or.inr ⟨?_, rfl⟩⟩
      · simp [featureCalculatorRun, hterm, encode_video_argv, encode_params_failed,
          input_params, global_params]
      · simp [featureCalculatorRun, hterm]
    | ok rows =>
      refine ⟨["-" ++ (select_best_row rows).parameter,
               toString (select_best_row rows).value], ?_,
        Or.inl ⟨?_, (select_best_row rows).parameter,
          (select_best_row rows).value, ?_, ?_, rfl⟩⟩ <;>
        simp [featureCalculatorRun, hterm, predictResult, encode_video_argv,
          encode_params_success, input_params, global_params]

/-- C10: a predictor output whose status is neither success nor failed
yields only the codec and preset arguments, with no rate-control flag. -/
theorem encode_params_other_status (p : PredictorOutput)
    (h1 : p.status ≠ "success") (h2 : p.status ≠ "failed") :
    encode_params p = some ["-c:v", "libx265", "-preset", "veryslow"] := by
  simp [encode_params, h1, h2]

/-- Witness for C10 at the success_fallback status the spec mentions. -/
theorem encode_params_other_status_witness :
    (("success_fallback" : String) ≠ "success" ∧
     ("success_fallback" : String) ≠ "failed") ∧
    encode_params ⟨some "crf", some 16, "success_fallback", none⟩ =
      some ["-c:v", "libx265", "-preset", "veryslow"] :=
  ⟨⟨by decide, by decide⟩,
   encode_params_other_status ⟨some "crf", some 16, "success_fallback", none⟩
     (by decide) (by decide)⟩

theorem notHvMaskPixel_eq_zero (R theta : Rat) : notHvMaskPixel R theta = 0 := by
  have hpi : (0 : Rat) < piF := by norm_num [piF]
  simp only [notHvMaskPixel, List.range_succ, List.range_zero, List.nil_append,
    List.foldl_append, List.foldl_cons, List.foldl_nil]
  split_ifs with h1 h2 h3 h4
  · obtain ⟨-, hmin, hmax⟩ := h1
    push_cast at hmin hmax
    linarith
  · obtain ⟨-, hmin, hmax⟩ := h2
    push_cast at hmin hmax
    linarith
  · obtain ⟨-, hmin, hmax⟩ := h3
    push_cast at hmin hmax
    linarith
  · obtain ⟨-, hmin, hmax⟩ := h4
    push_cast at hmin hmax
    linarith
  · rfl

/-- C7: the second channel of the FHV13 extractor output is zero at every
pixel of every frame, because each supposedly diagonal sector has its
lower angle bound above its upper bound; so no frame ever has a non-zero
channel 1, contrary to the claim. -/
theorem fhv13_channel1_always_zero (rtheta : List (List (Rat × Rat))) :
    fhv13MaskChannels rtheta =
      rtheta.map (List.map (fun p => (hvMaskPixel p.1 p.2, 0))) := by
  simp [fhv13MaskChannels, notHvMaskPixel_eq_zero]

/-- C8: the TI extractor returns nothing for the first frame, but the
later outputs are uint8 wraparound differences: at Y frames with single
pixel 10 then 5 it returns 251, which is not the integer difference
5 minus 10. -/
theorem ti_first_none_and_wraparound :
    (∀ (f : YFrame) (rest : List YFrame),
        (tiProcess (f :: rest)).head? = some none) ∧
    tiProcess [[[10]], [[5]]] = [none, some [[251]]] ∧
    ¬((5 : Int) - 10 = 251) :=
  ⟨fun _ _ => rfl, rfl, by decide⟩

theorem featureCalculator_writes_status (t : TaskRow)
    (analysis : Except String (List CandidateRow)) (w : TaskRow)
    (hmem : w ∈ (featureCalculatorRun t analysis).writes) :
    w.status = TaskStatus.processing := by
  by_cases hterm : t.status = TaskStatus.completed ∨ t.status = TaskStatus.failed
  · simp [featureCalculatorRun, hterm] at hmem
  · simp only [featureCalculatorRun, if_neg hterm] at hmem
    cases analysis <;> simp at hmem <;> simp [hmem]

theorem encoded_key_ne_empty (s : String) : "encoded/" ++ s ++ ".mp4" ≠ "" := by
  intro h
  have hlen := congrArg String.length h
  simp [String.length_append] at hlen
  exact absurd hlen.2 (by decide)

theorem transcode_writes_completed_shape (t : TaskRow) (p : PredictorOutput)
    (hexName : String) (oc : EncodeOutcome) (w : TaskRow)
    (hmem : w ∈ (transcodeRun t p hexName oc).writes)
    (hc : w.status = TaskStatus.completed) :
    ∃ f, w.output_file = some f ∧ f ≠ "" := by
  by_cases hterm : t.status = TaskStatus.completed ∨ t.status = TaskStatus.failed
  · simp [transcodeRun, hterm] at hmem
  · simp only [transcodeRun, if_neg hterm] at hmem
    cases hep : encode_params p with
    | none =>
      rw [hep] at hmem
      simp at hmem
      rw [hmem] at hc
      simp at hc
    | some l =>
      rw [hep] at hmem
      cases oc with
      | ok size =>
        simp at hmem
        rcases hmem with h | h
        · rw [h] at hc; simp at hc
        · exact ⟨"encoded/" ++ hexName ++ ".mp4", by simp [h],
            encoded_key_ne_empty hexName⟩
      | encodeError m =>
        simp at hmem
        rcases hmem with h | h <;> (rw [h] at hc; simp at hc)
      | uploadError m =>
        simp at hmem
        rcases hmem with h | h <;> (rw [h] at hc; simp at hc)

theorem storedTask_completed_output (t : TaskRow) (h : StoredTask t) :
    t.status = TaskStatus.completed → ∃ f, t.output_file = some f ∧ f ≠ "" := by
  induction h with
  | created src size =>
    intro hc
    simp at hc
  | analyzeWrite t w analysis hst hmem ih =>
    intro hc
    rw [featureCalculator_writes_status t analysis w hmem] at hc
    simp at hc
  | transcodeWrite t w p hexName oc hst hmem ih =>
    intro hc
    exact transcode_writes_completed_shape t p hexName oc w hmem hc

/-- C9: for every task row the system can store, the single-task endpoint
attaches a download URL exactly when the status is completed; completed
stored rows always carry a truthy output key, so the URL is present, and
any other status yields no URL. -/
theorem get_task_download_url_iff_completed (presign : String → String)
    (t : TaskRow) (h : StoredTask t) :
    (get_task_download_url presign t).isSome ↔
      t.status = TaskStatus.completed := by
  constructor
  · intro hsome
    by_contra hne
    simp [get_task_download_url, hne] at hsome
  · intro hc
    obtain ⟨f, hf, hfne⟩ := storedTask_completed_output t h hc
    simp [get_task_download_url, hc, hf, hfne]

/-- Witness for C9 at the completed row written by a successful transcode
of a freshly created task. -/
theorem get_task_download_url_iff_completed_witness :
    (get_task_download_url (fun f => "https://cdn/" ++ f)
        ⟨TaskStatus.completed, "source/a.mp4", 100, some "encoded/abc.mp4",
         some 5, none⟩).isSome ↔
    (⟨TaskStatus.completed, "source/a.mp4", 100, some "encoded/abc.mp4",
      some 5, none⟩ : TaskRow).status = TaskStatus.completed :=
  get_task_download_url_iff_completed _ _
    (StoredTask.transcodeWrite
      ⟨TaskStatus.pending, "source/a.mp4", 100, none, none, none⟩
      ⟨TaskStatus.completed, "source/a.mp4", 100, some "encoded/abc.mp4",
       some 5, none⟩
      ⟨none, none, "failed", none⟩ "abc" (.ok 5)
      (StoredTask.created "source/a.mp4" 100)
      (by decide))

end VideoCompression
